import Mathlib

/-!
Shallow embedding of the core of `src/mcp/src/linear-core.ts` (the
streamlinear repository): identifier resolution, priority labels,
fuzzy workflow-state resolution, the reference-data cache, and the
search/update/comment/create action handlers.

Remote interaction is modelled explicitly: an `Env` record supplies the
responses the remote service would return, a `Cache` record carries the
two module-level cache variables (`cachedViewer`, `cachedTeams`), and
every handler returns its result string together with the updated cache
and the list of remote queries/mutations it issued, in order.

Strings are `String` (lists of characters); the JavaScript code operates
on UTF-16 strings, whose `length`/`slice`/`toLowerCase` agree with the
character-level model on the ASCII inputs the claims concern.
-/

/-- JavaScript `String.prototype.toLowerCase` (ASCII range), computed
character by character so that it evaluates by kernel reduction. -/
def toLowerStr (s : String) : String := String.mk (s.toList.map Char.toLower)

/-- JavaScript `String.prototype.toUpperCase` (ASCII range). -/
def toUpperStr (s : String) : String := String.mk (s.toList.map Char.toUpper)

/-- Case-insensitive character comparison, as performed by a JavaScript
regular expression with the `i` flag (ASCII canonicalisation). -/
def ciEq (p c : Char) : Bool := p.toLower == c.toLower

/-- Match a literal pattern case-insensitively at the head of the input,
returning the remaining input on success. -/
def matchCI : List Char → List Char → Option (List Char)
  | [], l => some l
  | _ :: _, [] => none
  | p :: ps, c :: cs => if ciEq p c then matchCI ps cs else none

/-- Attempt the pattern `linear\.app\/[^/]+\/issue\/([A-Z]+-\d+)` (with
the `i` flag) at one fixed starting position, returning the characters of
capture group 1 on success.  The greedy runs `[^/]+`, `[A-Z]+`, `\d+` are
each followed by a character outside their class (or the pattern end), so
maximal-munch without backtracking is exact. -/
def matchUrlAt (l : List Char) : Option (List Char) :=
  match matchCI "linear.app/".toList l with
  | none => none
  | some r1 =>
    let ws := r1.takeWhile (fun c => c != '/')
    if ws.isEmpty then none else
    match r1.drop ws.length with
    | '/' :: r2 =>
      match matchCI "issue/".toList r2 with
      | none => none
      | some r3 =>
        let letters := r3.takeWhile Char.isAlpha
        if letters.isEmpty then none else
        match r3.drop letters.length with
        | '-' :: r4 =>
          let digits := r4.takeWhile Char.isDigit
          if digits.isEmpty then none else some (letters ++ '-' :: digits)
        | _ => none
    | _ => none

/-- Left-to-right scan for the first position where the URL pattern
matches, as `String.prototype.match` does for an unanchored regex. -/
def findUrlCode : List Char → Option (List Char)
  | [] => none
  | c :: rest =>
    match matchUrlAt (c :: rest) with
    | some code => some code
    | none => findUrlCode rest

/-- The anchored test `/^[A-Z]+-\d+$/i`: letters, a dash, digits, end. -/
def isShortId (l : List Char) : Bool :=
  let letters := l.takeWhile Char.isAlpha
  !letters.isEmpty &&
    match l.drop letters.length with
    | '-' :: rest =>
      let ds := rest.takeWhile Char.isDigit
      !ds.isEmpty && (rest.drop ds.length).isEmpty
    | _ => false

/-- `resolveId` from linear-core.ts: a linear.app issue URL yields the
captured short code as written; a bare short code is uppercased; anything
else (a UUID, say) passes through unchanged. -/
def resolveId (input : String) : String :=
  match findUrlCode input.toList with
  | some code => String.mk code
  | none =>
    if isShortId input.toList then toUpperStr input else input

/-- `priorityName` from linear-core.ts: a table lookup whose out-of-range
result (`undefined` in JavaScript) falls back to "Unknown" via `||`;
the model is total, so no index-out-of-range failure is possible. -/
def priorityName (p : Int) : String :=
  match p with
  | Int.ofNat n => (["No priority", "Urgent", "High", "Medium", "Low"][n]?).getD "Unknown"
  | Int.negSucc _ => "Unknown"

/-- Literal match of `sub` at the head of `l`. -/
def subAtHead : List Char → List Char → Bool
  | [], _ => true
  | _ :: _, [] => false
  | a :: as, b :: bs => a == b && subAtHead as bs

/-- Scan for `sub` at every position of `l`. -/
def containsAux (sub : List Char) : List Char → Bool
  | [] => sub.isEmpty
  | c :: rest => subAtHead sub (c :: rest) || containsAux sub rest

/-- JavaScript `String.prototype.includes`: substring containment. -/
def strContains (s sub : String) : Bool := containsAux sub.toList s.toList

/-- A workflow state of a team: `{ id name type }` nodes. -/
structure StateNode where
  id : String
  name : String
  type : String
deriving DecidableEq

/-- Tier 1 of `resolveState`: case-insensitive exact name match
(`states.find((s) => s.name.toLowerCase() === lower)`). -/
def exactTier (states : List StateNode) (lower : String) : Option StateNode :=
  states.find? (fun s => toLowerStr s.name == lower)

/-- Tier 2 of `resolveState`: first state whose lowercased name contains
the query (`s.name.toLowerCase().includes(lower)`). -/
def substrTier (states : List StateNode) (lower : String) : Option StateNode :=
  states.find? (fun s => strContains (toLowerStr s.name) lower)

/-- The fixed canonical-alias table of `resolveState`, in source order. -/
def aliases : List (String × List String) :=
  [("done", ["done", "complete", "completed", "finished"]),
   ("in progress", ["in progress", "started", "doing", "wip", "in prog"]),
   ("todo", ["todo", "to do", "backlog", "open"]),
   ("canceled", ["canceled", "cancelled", "closed", "wontfix"])]

/-- Tier 3 of `resolveState`: for each alias bucket in order, if the query
is one of the bucket's aliases, look for a state whose lowercased name
contains the bucket's canonical label; the loop continues past a bucket
whose catalog search misses. -/
def aliasTier (states : List StateNode) (lower : String) : Option StateNode :=
  aliases.findSome? (fun kv =>
    if kv.2.contains lower then
      states.find? (fun s => strContains (toLowerStr s.name) kv.1)
    else none)

/-- The pure core of `resolveState`: lowercase the query, then try the
three tiers in order on a team's state catalog. -/
def resolveStateCore (states : List StateNode) (stateName : String) : Option String :=
  let lower := toLowerStr stateName
  match exactTier states lower with
  | some s => some s.id
  | none =>
    match substrTier states lower with
    | some s => some s.id
    | none => (aliasTier states lower).map (fun s => s.id)

/-- The authenticated viewer: `viewer \x7b id name email \x7d`. -/
structure Viewer where
  id : String
  name : String
  email : String
deriving DecidableEq

/-- A team: `\x7b id key name states \x7d` as returned by the teams query. -/
structure Team where
  id : String
  key : String
  name : String
  states : List StateNode
deriving DecidableEq

/-- A user row from the `users` query: `\x7b id email \x7d`. -/
structure User where
  id : String
  email : String
deriving DecidableEq

/-- An issue as consumed by the list formatter and update confirmation:
optional sub-records are `Option` (JavaScript `undefined`). -/
structure Issue where
  id : String
  identifier : String
  title : String
  stateName : Option String
  priority : Int
  assigneeName : Option String
  dueDate : Option String
deriving DecidableEq

/-- The issue row fetched by update/comment before mutating:
`issue \x7b id identifier team \x7b id \x7d \x7d`. -/
structure IssueInfo where
  id : String
  identifier : String
  teamId : String
deriving DecidableEq

/-- The issue row returned by `issueCreate`. -/
structure CreatedIssue where
  identifier : String
  title : String
  url : String
deriving DecidableEq

/-- The `IssueUpdateInput` record built by `handleUpdate`.  In the source
it is an open record written field by field; a `none` field here means
the key is absent from the record.  `assigneeId = some none` is the key
present with value `null` (explicit unassignment).  `labelIds` is a field
the remote input type accepts but that the handler never writes. -/
structure MutInput where
  stateId : Option String := none
  priority : Option Int := none
  assigneeId : Option (Option String) := none
  labelIds : Option (List String) := none
deriving DecidableEq

/-- `Object.keys(input).length === 0` for a `MutInput`. -/
def MutInput.isEmpty (i : MutInput) : Bool :=
  i.stateId.isNone && i.priority.isNone && i.assigneeId.isNone && i.labelIds.isNone

/-- The `IssueCreateInput` record built by `handleCreate`; `labelIds` as
in `MutInput`. -/
structure CreateInput where
  title : String
  teamId : String
  description : Option String := none
  priority : Option Int := none
  labelIds : Option (List String) := none
deriving DecidableEq

/-- One remote GraphQL call, as recorded in a handler's effect log. -/
inductive Query where
  | viewerQ
  | teamsQ
  | searchIssuesQ (term : String)
  | issuesQ (filter : String)
  | issueQ (id : String)
  | usersQ
  | issueUpdateM (id : String) (input : MutInput)
  | commentCreateM (issueId : String) (body : String)
  | issueCreateM (input : CreateInput)
deriving DecidableEq

/-- True exactly for the `issueCreate` mutation. -/
def Query.isCreate : Query → Bool
  | Query.issueCreateM _ => true
  | _ => false

/-- A query is labels-free when, if it is a mutation, its input carries
no `labelIds` field. -/
def Query.labelsFree : Query → Bool
  | Query.issueUpdateM _ input => input.labelIds.isNone
  | Query.issueCreateM input => input.labelIds.isNone
  | _ => true

/-- The two module-level cache variables of linear-core.ts. -/
structure Cache where
  cachedViewer : Option Viewer := none
  cachedTeams : Option (List Team) := none
deriving DecidableEq

/-- The empty cache of a freshly started process. -/
def cache0 : Cache := {}

/-- The remote service, abstracted as response providers: what each
query the handlers can issue would return. -/
structure Env where
  viewer : Viewer
  teams : List Team
  searchResults : String → List Issue
  issuesByFilter : String → List Issue
  issueLookup : String → Option IssueInfo
  users : List User
  updatedIssue : String → MutInput → Issue
  createdIssue : CreateInput → CreatedIssue

/-- `getViewer`: return the cached viewer, or issue one viewer query and
cache the result. -/
def getViewer (env : Env) (c : Cache) : Viewer × Cache × List Query :=
  match c.cachedViewer with
  | some v => (v, c, [])
  | none => (env.viewer, { c with cachedViewer := some env.viewer }, [Query.viewerQ])

/-- `getTeams`: return the cached team catalog, or issue one teams query
and cache the result. -/
def getTeams (env : Env) (c : Cache) : List Team × Cache × List Query :=
  match c.cachedTeams with
  | some ts => (ts, c, [])
  | none => (env.teams, { c with cachedTeams := some env.teams }, [Query.teamsQ])

/-- `resolveState`: fetch the team catalog, locate the team by id, then
run the three-tier fuzzy match on its states. -/
def resolveState (env : Env) (c : Cache) (teamId stateName : String) :
    Option String × Cache × List Query :=
  let gt := getTeams env c
  match gt.1.find? (fun t => t.id == teamId) with
  | none => (none, gt.2.1, gt.2.2)
  | some team => (resolveStateCore team.states stateName, gt.2.1, gt.2.2)

/-- `resolveTeam`: case-insensitive exact match on team key or name. -/
def resolveTeam (env : Env) (c : Cache) (input : String) :
    Option Team × Cache × List Query :=
  let gt := getTeams env c
  let lower := toLowerStr input
  (gt.1.find? (fun t => toLowerStr t.key == lower || toLowerStr t.name == lower),
   gt.2.1, gt.2.2)

/-- JavaScript `x || d` for an optional string: `undefined` and the empty
string are both falsy. -/
def orElseStr (o : Option String) (d : String) : String :=
  match o with
  | some s => if s.isEmpty then d else s
  | none => d

/-- JavaScript truthiness of an optional string field (`if (x)`): the
field is acted on only when present and non-empty. -/
def truthyOpt : Option String → Option String
  | some s => if s.isEmpty then none else some s
  | none => none

/-- `formatIssueList`: one bracketed line per issue, or the sentinel. -/
def formatIssueList (issues : List Issue) : String :=
  if issues.isEmpty then "No issues found."
  else
    String.intercalate "\n" (issues.map (fun issue =>
      "- **" ++ issue.identifier ++ "** [" ++ orElseStr issue.stateName "?" ++ "] " ++
        issue.title ++ " (" ++ priorityName issue.priority ++ ", " ++
        orElseStr issue.assigneeName "Unassigned" ++ ")"))

/-- The `query` argument of the search action: free text or a filter
object (absence is modelled at the call site with `Option`). -/
structure FilterQuery where
  assignee : Option String := none
  state : Option String := none
  priority : Option Int := none
  team : Option String := none
deriving DecidableEq

/-- Search query forms. -/
inductive SearchQuery where
  | text (s : String)
  | filter (f : FilterQuery)
deriving DecidableEq

/-- `handleSearch`: fetch the viewer first (the source does so before
inspecting the query), then run the default, text, or filter search.  A
missing query or an empty text query is falsy in the source and takes the
default branch. -/
def handleSearch (env : Env) (c : Cache) (query : Option SearchQuery) :
    String × Cache × List Query :=
  let gv := getViewer env c
  let viewer := gv.1
  let c1 := gv.2.1
  let log0 := gv.2.2
  let defaultFilter :=
    "filter: \x7b assignee: \x7b id: \x7b eq: \"" ++ viewer.id ++
      "\" \x7d \x7d, state: \x7b type: \x7b nin: [\"completed\", \"canceled\"] \x7d \x7d \x7d"
  let defaultResult :=
    (formatIssueList (env.issuesByFilter defaultFilter), c1,
     log0 ++ [Query.issuesQ defaultFilter])
  match query with
  | none => defaultResult
  | some (SearchQuery.text term) =>
    if term.isEmpty then defaultResult
    else
      (formatIssueList (env.searchResults term), c1,
       log0 ++ [Query.searchIssuesQ term])
  | some (SearchQuery.filter q) =>
    let fs1 :=
      match q.assignee with
      | some a =>
        if a == "me" then
          ["assignee: \x7b id: \x7b eq: \"" ++ viewer.id ++ "\" \x7d \x7d"]
        else if a.isEmpty then []
        else ["assignee: \x7b email: \x7b eq: \"" ++ a ++ "\" \x7d \x7d"]
      | none => []
    let fs2 :=
      match truthyOpt q.state with
      | some s => ["state: \x7b name: \x7b eqIgnoreCase: \"" ++ s ++ "\" \x7d \x7d"]
      | none => []
    let fs3 :=
      match q.priority with
      | some p => ["priority: \x7b eq: " ++ toString p ++ " \x7d"]
      | none => []
    let rt :=
      match truthyOpt q.team with
      | some t => resolveTeam env c1 t
      | none => (none, c1, [])
    let fs4 :=
      match rt.1 with
      | some team => ["team: \x7b id: \x7b eq: \"" ++ team.id ++ "\" \x7d \x7d"]
      | none => []
    let filters := fs1 ++ fs2 ++ fs3 ++ fs4
    let filter :=
      if filters.isEmpty then ""
      else "filter: \x7b " ++ String.intercalate ", " filters ++ " \x7d"
    (formatIssueList (env.issuesByFilter filter), rt.2.1,
     log0 ++ rt.2.2 ++ [Query.issuesQ filter])

/-- The state-field step of `handleUpdate`: when a (truthy) state is
supplied, resolve it; a miss re-reads the catalog and returns the
valid-states result as an early exit (`Except.error`). -/
def updStateStep (env : Env) (c : Cache) (teamId : String) (state : Option String) :
    Except (String × Cache × List Query) (Option String × Cache × List Query) :=
  match truthyOpt state with
  | none => Except.ok (none, c, [])
  | some sName =>
    let rs := resolveState env c teamId sName
    match rs.1 with
    | some sid => Except.ok (some sid, rs.2.1, rs.2.2)
    | none =>
      let gt := getTeams env rs.2.1
      let validStates :=
        match gt.1.find? (fun t => t.id == teamId) with
        | some team => String.intercalate ", " (team.states.map (fun s => s.name))
        | none => "unknown"
      Except.error
        ("State \"" ++ sName ++ "\" not found. Valid states: " ++ validStates,
         gt.2.1, rs.2.2 ++ gt.2.2)

/-- The assignee-field step of `handleUpdate`: `null` clears, `"me"`
resolves through the viewer cache, anything else is an email looked up in
the full user list (one users query), with a user-not-found early exit. -/
def updAssigneeStep (env : Env) (c : Cache) (assignee : Option (Option String)) :
    Except (String × Cache × List Query) (Option (Option String) × Cache × List Query) :=
  match assignee with
  | none => Except.ok (none, c, [])
  | some none => Except.ok (some none, c, [])
  | some (some a) =>
    if a == "me" then
      let gv := getViewer env c
      Except.ok (some (some gv.1.id), gv.2.1, gv.2.2)
    else
      match env.users.find? (fun u => toLowerStr u.email == toLowerStr a) with
      | some u => Except.ok (some (some u.id), c, [Query.usersQ])
      | none =>
        Except.error
          ("Could not find user with email \"" ++ a ++ "\"", c, [Query.usersQ])

/-- The fields accepted by the update action (`labels` is accepted by the
schema but never used by the handler). -/
structure UpdateArgs where
  state : Option String := none
  priority : Option Int := none
  assignee : Option (Option String) := none
  labels : Option (List String) := none
deriving DecidableEq

/-- `handleUpdate`: resolve the reference, fetch the issue's team, build
the mutation input from exactly the supplied fields, and either report
"No updates provided" or submit one update mutation. -/
def handleUpdate (env : Env) (c : Cache) (id : String) (updates : UpdateArgs) :
    String × Cache × List Query :=
  let resolved := resolveId id
  let baseLog := [Query.issueQ resolved]
  match env.issueLookup resolved with
  | none => ("Issue " ++ id ++ " not found", c, baseLog)
  | some issue =>
    match updStateStep env c issue.teamId updates.state with
    | Except.error (msg, c1, l1) => (msg, c1, baseLog ++ l1)
    | Except.ok (stateId, c1, l1) =>
      match updAssigneeStep env c1 updates.assignee with
      | Except.error (msg, c2, l2) => (msg, c2, baseLog ++ l1 ++ l2)
      | Except.ok (assigneeId, c2, l2) =>
        let input : MutInput :=
          { stateId := stateId, priority := updates.priority,
            assigneeId := assigneeId, labelIds := none }
        if input.isEmpty then
          ("No updates provided", c2, baseLog ++ l1 ++ l2)
        else
          let issueAfter := env.updatedIssue issue.id input
          let changes :=
            (match truthyOpt updates.state with
             | some _ => ["state → " ++ (issueAfter.stateName.getD "undefined")]
             | none => []) ++
            (match updates.priority with
             | some _ => ["priority → " ++ priorityName issueAfter.priority]
             | none => []) ++
            (match updates.assignee with
             | some _ => ["assignee → " ++ orElseStr issueAfter.assigneeName "Unassigned"]
             | none => [])
          ("Updated " ++ issueAfter.identifier ++ ": " ++ String.intercalate ", " changes,
           c2, baseLog ++ l1 ++ l2 ++ [Query.issueUpdateM issue.id input])

/-- `handleComment`: fetch the issue, submit the comment mutation, and
echo a preview of the body, truncated to 100 characters with an ellipsis
marker when longer. -/
def handleComment (env : Env) (c : Cache) (id body : String) :
    String × Cache × List Query :=
  let resolved := resolveId id
  match env.issueLookup resolved with
  | none => ("Issue " ++ id ++ " not found", c, [Query.issueQ resolved])
  | some issue =>
    let truncated :=
      if body.length > 100 then String.mk (body.toList.take 100) ++ "..." else body
    ("Added comment to " ++ issue.identifier ++ ":\n> " ++ truncated,
     c, [Query.issueQ resolved, Query.commentCreateM issue.id body])

/-- Options of the create action (`labels` accepted, never used). -/
structure CreateOptions where
  body : Option String := none
  priority : Option Int := none
  labels : Option (List String) := none
deriving DecidableEq

/-- `handleCreate`: resolve the team; a miss lists the available teams
and performs no mutation; otherwise build the create input from title,
team id, and the supplied optional fields, and submit one mutation. -/
def handleCreate (env : Env) (c : Cache) (title team : String)
    (options : CreateOptions) : String × Cache × List Query :=
  let rt := resolveTeam env c team
  match rt.1 with
  | none =>
    let gt := getTeams env rt.2.1
    let validTeams :=
      String.intercalate ", " (gt.1.map (fun t => t.key ++ " (" ++ t.name ++ ")"))
    ("Team \"" ++ team ++ "\" not found. Available: " ++ validTeams,
     gt.2.1, rt.2.2 ++ gt.2.2)
  | some teamData =>
    let input : CreateInput :=
      { title := title, teamId := teamData.id,
        description := truthyOpt options.body,
        priority := options.priority, labelIds := none }
    let issue := env.createdIssue input
    ("Created " ++ issue.identifier ++ ": " ++ issue.title ++ "\n" ++ issue.url,
     rt.2.1, rt.2.2 ++ [Query.issueCreateM input])

/-- A sample viewer for concrete instances. -/
def viewerSample : Viewer := { id := "viewer-1", name := "Ada", email := "ada@example.com" }

/-- A sample workflow-state catalog with exactly the names of claim C2. -/
def sampleStates : List StateNode :=
  [{ id := "state-done", name := "Done", type := "completed" },
   { id := "state-prog", name := "In Progress", type := "started" },
   { id := "state-can", name := "Canceled", type := "canceled" }]

/-- A sample team owning `sampleStates`. -/
def teamSample : Team :=
  { id := "team-1", key := "ENG", name := "Engineering", states := sampleStates }

/-- The lookup row for the sample issue `ABC-1`. -/
def issueInfoSample : IssueInfo :=
  { id := "uuid-1", identifier := "ABC-1", teamId := "team-1" }

/-- A sample issue record as the remote would return after a mutation. -/
def issueSample : Issue :=
  { id := "uuid-1", identifier := "ABC-1", title := "T", stateName := some "Done",
    priority := 2, assigneeName := none, dueDate := none }

/-- A sample created-issue row. -/
def createdSample : CreatedIssue := { identifier := "ENG-9", title := "New", url := "u" }

/-- A concrete remote environment used by witnesses and counterexamples. -/
def envSample : Env :=
  { viewer := viewerSample, teams := [teamSample],
    searchResults := fun _ => [], issuesByFilter := fun _ => [],
    issueLookup := fun i => if i == "ABC-1" then some issueInfoSample else none,
    users := [],
    updatedIssue := fun _ _ => issueSample,
    createdIssue := fun _ => createdSample }

/-- A cache whose team catalog is already populated. -/
def cacheTeams : Cache := { cachedViewer := none, cachedTeams := some [teamSample] }

/-- Modelled from the spec's words ("resolves via the alias tier"), for
comparison with the code: a query resolves via the alias tier when the
exact and substring tiers both miss and the alias tier yields the id. -/
def resolvesViaAlias (states : List StateNode) (q sid : String) : Prop :=
  exactTier states (toLowerStr q) = none ∧
  substrTier states (toLowerStr q) = none ∧
  (aliasTier states (toLowerStr q)).map (fun s => s.id) = some sid

instance (states : List StateNode) (q sid : String) :
    Decidable (resolvesViaAlias states q sid) := by
  unfold resolvesViaAlias; infer_instance

/-- The effect log of an update step, on either exit path. -/
def exLog {α : Type} :
    Except (String × Cache × List Query) (α × Cache × List Query) → List Query
  | Except.ok (_, _, l) => l
  | Except.error (_, _, l) => l

/-- A cache whose viewer is already populated. -/
def cacheViewerS : Cache := { cachedViewer := some viewerSample, cachedTeams := none }

/-- C6: priority label lookup returns exactly "No priority", "Urgent",
"High", "Medium", "Low" for 0,1,2,3,4, and "Unknown" for every other
integer; the model is a total function, so no index-out-of-range failure
is possible for any integer input. -/
theorem priorityName_total_spec :
    priorityName 0 = "No priority" ∧ priorityName 1 = "Urgent" ∧
    priorityName 2 = "High" ∧ priorityName 3 = "Medium" ∧
    priorityName 4 = "Low" ∧
    ∀ p : Int, (p < 0 ∨ 4 < p) → priorityName p = "Unknown" := by
  refine ⟨by decide, by decide, by decide, by decide, by decide, ?_⟩
  intro p hp
  match p with
  | Int.negSucc n => rfl
  | Int.ofNat n =>
    have h5 : 5 ≤ n := by
      rcases hp with h | h <;> simp only [Int.ofNat_eq_coe] at h <;> omega
    simp only [priorityName]
    rw [List.getElem?_eq_none (by simpa using h5)]
    rfl

/-- Witness for C6 at the out-of-range input 7. -/
theorem priorityName_total_spec_witness :
    ((7 : Int) < 0 ∨ (4 : Int) < 7) ∧ priorityName 7 = "Unknown" :=
  ⟨Or.inr (by decide), priorityName_total_spec.2.2.2.2.2 7 (Or.inr (by decide))⟩

/-- C8: two sequential `getTeams` calls issue at most one teams query in
total, and the second call returns the same value as the first. -/
theorem getTeams_cached_idempotent (env : Env) (c : Cache) :
    (getTeams env (getTeams env c).2.1).1 = (getTeams env c).1 ∧
    ((getTeams env c).2.2 ++ (getTeams env (getTeams env c).2.1).2.2).countP
        (fun q => q == Query.teamsQ) ≤ 1 := by
  cases h : c.cachedTeams <;> simp [getTeams, h, List.countP_cons]

/-- C4: state resolution is tier-ordered — whenever the query matches
some catalog state case-insensitively exactly (tier 1), `resolveState`
returns that state's id, regardless of what the substring or alias tiers
would produce. -/
theorem resolveState_tier_ordered (env : Env) (c : Cache) (teamId q : String)
    (team : Team) (s : StateNode)
    (hteam : (getTeams env c).1.find? (fun t => t.id == teamId) = some team)
    (hexact : exactTier team.states (toLowerStr q) = some s) :
    (resolveState env c teamId q).1 = some s.id := by
  simp only [resolveState]
  rw [hteam]
  simp only [resolveStateCore]
  rw [hexact]

/-- Witness for C4: against the sample catalog, the query "Done" has an
exact-tier hit and `resolveState` returns that state's identifier. -/
theorem resolveState_tier_ordered_witness :
    ((getTeams envSample cacheTeams).1.find? (fun t => t.id == "team-1")
      = some teamSample) ∧
    (exactTier teamSample.states (toLowerStr "Done")
      = some { id := "state-done", name := "Done", type := "completed" }) ∧
    (resolveState envSample cacheTeams "team-1" "Done").1 = some "state-done" :=
  ⟨by decide, by decide,
   resolveState_tier_ordered envSample cacheTeams "team-1" "Done" teamSample
     { id := "state-done", name := "Done", type := "completed" }
     (by decide) (by decide)⟩

/-- C2 counterexample: against the catalog Done / In Progress / Canceled,
the queries "done" and "in prog" do NOT resolve via the alias tier — the
exact tier hits "done" and the substring tier hits "in prog" — so the
claim that all three queries resolve through the alias tier is false. -/
theorem resolveState_alias_cex :
    (exactTier sampleStates (toLowerStr "done")).isSome = true ∧
    ¬ resolvesViaAlias sampleStates "done" "state-done" ∧
    (substrTier sampleStates (toLowerStr "in prog")).isSome = true ∧
    ¬ resolvesViaAlias sampleStates "in prog" "state-prog" := by decide

/-- C2 amended: the three queries do resolve to the intended states'
identifiers (with the team catalog already cached, no query is issued),
but "done" resolves via the exact tier, "in prog" via the substring tier,
and only "wontfix" via the alias tier. -/
theorem resolveState_done_prog_wontfix :
    (resolveState envSample cacheTeams "team-1" "done").1 = some "state-done" ∧
    (resolveState envSample cacheTeams "team-1" "in prog").1 = some "state-prog" ∧
    (resolveState envSample cacheTeams "team-1" "wontfix").1 = some "state-can" ∧
    (resolveState envSample cacheTeams "team-1" "done").2.2 = [] ∧
    exactTier sampleStates (toLowerStr "done")
      = some { id := "state-done", name := "Done", type := "completed" } ∧
    (substrTier sampleStates (toLowerStr "in prog")).map (fun s => s.id)
      = some "state-prog" ∧
    resolvesViaAlias sampleStates "wontfix" "state-can" := by decide

/-- C9: the comment confirmation echoes the body in full when its length
is at most 100, and exactly the first 100 characters followed by the
ellipsis marker "..." when longer. -/
theorem handleComment_echo (env : Env) (c : Cache) (id body : String)
    (issue : IssueInfo) (h : env.issueLookup (resolveId id) = some issue) :
    (body.length > 100 →
      (handleComment env c id body).1 =
        "Added comment to " ++ issue.identifier ++ ":\n> " ++
          (String.mk (body.toList.take 100) ++ "...")) ∧
    (body.length ≤ 100 →
      (handleComment env c id body).1 =
        "Added comment to " ++ issue.identifier ++ ":\n> " ++ body) := by
  constructor <;> intro hlen
  · simp [handleComment, h, hlen]
  · have hnot : ¬ body.length > 100 := by omega
    simp [handleComment, h, hnot]

/-- Witness for C9 at a 101-character body and at a short body. -/
theorem handleComment_echo_witness :
    (envSample.issueLookup (resolveId "ABC-1") = some issueInfoSample) ∧
    ((String.mk (List.replicate 101 'a')).length > 100) ∧
    (handleComment envSample cache0 "ABC-1" (String.mk (List.replicate 101 'a'))).1 =
      "Added comment to " ++ issueInfoSample.identifier ++ ":\n> " ++
        (String.mk ((String.mk (List.replicate 101 'a')).toList.take 100) ++ "...") ∧
    (handleComment envSample cache0 "ABC-1" "short").1 =
      "Added comment to " ++ issueInfoSample.identifier ++ ":\n> " ++ "short" :=
  ⟨by decide, by decide,
   (handleComment_echo envSample cache0 "ABC-1" (String.mk (List.replicate 101 'a'))
      issueInfoSample (by decide)).1 (by decide),
   (handleComment_echo envSample cache0 "ABC-1" "short"
      issueInfoSample (by decide)).2 (by decide)⟩

/-- C5: an update supplying only a priority issues the issue-lookup query
and then exactly one update mutation whose input record carries only the
priority field — no stateId, no assigneeId, no labelIds — so state and
assignee are untouched remotely. -/
theorem handleUpdate_priority_only (env : Env) (c : Cache) (id : String)
    (p : Int) (issue : IssueInfo)
    (h : env.issueLookup (resolveId id) = some issue) :
    (handleUpdate env c id { priority := some p }).2.2 =
      [Query.issueQ (resolveId id),
       Query.issueUpdateM issue.id
         { stateId := none, priority := some p, assigneeId := none, labelIds := none }] := by
  simp [handleUpdate, h, updStateStep, updAssigneeStep, truthyOpt, MutInput.isEmpty]

/-- Witness for C5 at priority 2 on the sample issue. -/
theorem handleUpdate_priority_only_witness :
    (envSample.issueLookup (resolveId "ABC-1") = some issueInfoSample) ∧
    (handleUpdate envSample cache0 "ABC-1" { priority := some 2 }).2.2 =
      [Query.issueQ (resolveId "ABC-1"),
       Query.issueUpdateM issueInfoSample.id
         { stateId := none, priority := some 2, assigneeId := none, labelIds := none }] :=
  ⟨by decide,
   handleUpdate_priority_only envSample cache0 "ABC-1" 2 issueInfoSample (by decide)⟩

/-- C3 counterexample: on a fresh cache, a plain text search and a filter
search that does not use the "me" assignee both issue a viewer query,
because `handleSearch` fetches the viewer before inspecting the query. -/
theorem handleSearch_viewer_cex :
    cache0.cachedViewer = none ∧
    Query.viewerQ ∈ (handleSearch envSample cache0 (some (SearchQuery.text "auth"))).2.2 ∧
    Query.viewerQ ∈ (handleSearch envSample cache0
      (some (SearchQuery.filter { state := some "Done" }))).2.2 := by decide

/-- C3 amended: the viewer accessor itself is lazy and cached — no viewer
query once the viewer is cached, exactly one on first use — but every
search action invokes it first, so a text search in a fresh process
issues a viewer query followed by the text-search query. -/
theorem viewer_lazy_amended :
    (∀ (env : Env) (c : Cache) (v : Viewer), c.cachedViewer = some v →
      (getViewer env c).2.2 = []) ∧
    (∀ (env : Env) (c : Cache), c.cachedViewer = none →
      (getViewer env c).2.2 = [Query.viewerQ]) ∧
    (∀ (env : Env) (term : String), term.isEmpty = false →
      (handleSearch env cache0 (some (SearchQuery.text term))).2.2 =
        [Query.viewerQ, Query.searchIssuesQ term]) := by
  refine ⟨?_, ?_, ?_⟩
  · intro env c v h; simp [getViewer, h]
  · intro env c h; simp [getViewer, h]
  · intro env term h; simp [handleSearch, getViewer, cache0, h]

/-- Witness for C3 amended: cached viewer issues nothing, fresh cache
issues exactly one viewer query, and the concrete text search logs the
viewer query then the search query. -/
theorem viewer_lazy_amended_witness :
    (cacheViewerS.cachedViewer = some viewerSample ∧
      (getViewer envSample cacheViewerS).2.2 = []) ∧
    (cache0.cachedViewer = none ∧
      (getViewer envSample cache0).2.2 = [Query.viewerQ]) ∧
    ("auth".isEmpty = false ∧
      (handleSearch envSample cache0 (some (SearchQuery.text "auth"))).2.2 =
        [Query.viewerQ, Query.searchIssuesQ "auth"]) :=
  ⟨⟨by decide, viewer_lazy_amended.1 envSample cacheViewerS viewerSample (by decide)⟩,
   ⟨by decide, viewer_lazy_amended.2.1 envSample cache0 (by decide)⟩,
   ⟨by decide, viewer_lazy_amended.2.2 envSample "auth" (by decide)⟩⟩

/-- A second `getTeams` call on the cache a first call produced returns
the first call's teams, leaves the cache unchanged, and issues nothing. -/
theorem getTeams_snd_idem (env : Env) (c : Cache) :
    getTeams env (getTeams env c).2.1 =
      ((getTeams env c).1, (getTeams env c).2.1, []) := by
  cases h : c.cachedTeams <;> simp [getTeams, h]

/-- `getTeams` logs only the teams query, never a mutation. -/
theorem getTeams_all_labelsFree (env : Env) (c : Cache) :
    ((getTeams env c).2.2).all Query.labelsFree = true := by
  cases h : c.cachedTeams <;> simp [getTeams, h, Query.labelsFree]

/-- `getTeams` never logs a create mutation. -/
theorem getTeams_no_create (env : Env) (c : Cache) :
    ((getTeams env c).2.2).all (fun q => !(Query.isCreate q)) = true := by
  cases h : c.cachedTeams <;> simp [getTeams, h, Query.isCreate]

/-- `getViewer` logs only the viewer query, never a mutation. -/
theorem getViewer_all_labelsFree (env : Env) (c : Cache) :
    ((getViewer env c).2.2).all Query.labelsFree = true := by
  cases h : c.cachedViewer <;> simp [getViewer, h, Query.labelsFree]

/-- `resolveState` logs exactly what its `getTeams` call logs. -/
theorem resolveState_log (env : Env) (c : Cache) (teamId stateName : String) :
    (resolveState env c teamId stateName).2.2 = (getTeams env c).2.2 := by
  simp only [resolveState]
  cases h : (getTeams env c).1.find? (fun t => t.id == teamId) <;> simp [h]

/-- The state step of an update never logs a mutation. -/
theorem updStateStep_log_labelsFree (env : Env) (c : Cache)
    (teamId : String) (state : Option String) :
    (exLog (updStateStep env c teamId state)).all Query.labelsFree = true := by
  simp only [updStateStep]
  cases h0 : truthyOpt state with
  | none => simp [exLog]
  | some sName =>
    cases h1 : (resolveState env c teamId sName).1 with
    | some sid => simp [exLog, h1, resolveState_log, getTeams_all_labelsFree]
    | none =>
      simp [exLog, h1, List.all_append, resolveState_log, getTeams_all_labelsFree]

/-- The assignee step of an update never logs a mutation. -/
theorem updAssigneeStep_log_labelsFree (env : Env) (c : Cache)
    (assignee : Option (Option String)) :
    (exLog (updAssigneeStep env c assignee)).all Query.labelsFree = true := by
  simp only [updAssigneeStep]
  match assignee with
  | none => simp [exLog]
  | some none => simp [exLog]
  | some (some a) =>
    cases hme : a == "me" with
    | true =>
      simp only [hme]
      simp [exLog, getViewer_all_labelsFree]
    | false =>
      simp only [hme]
      cases hu : env.users.find? (fun u => toLowerStr u.email == toLowerStr a) <;>
        simp [exLog, hu, Query.labelsFree]

/-- C7: a create whose team reference resolves to no cached team returns
the result string listing every available team's key and name, and its
effect log contains no create mutation. -/
theorem handleCreate_team_miss (env : Env) (c : Cache) (title team : String)
    (opts : CreateOptions) (h : (resolveTeam env c team).1 = none) :
    (handleCreate env c title team opts).1 =
      "Team \"" ++ team ++ "\" not found. Available: " ++
        String.intercalate ", "
          ((getTeams env c).1.map (fun t => t.key ++ " (" ++ t.name ++ ")")) ∧
    ((handleCreate env c title team opts).2.2).all
      (fun q => !(Query.isCreate q)) = true := by
  have hidem := getTeams_snd_idem env c
  constructor
  · simp only [handleCreate]
    rw [h]
    show "Team \"" ++ team ++ "\" not found. Available: " ++
        String.intercalate ", "
          ((getTeams env (resolveTeam env c team).2.1).1.map
            (fun t => t.key ++ " (" ++ t.name ++ ")")) = _
    have hc : (resolveTeam env c team).2.1 = (getTeams env c).2.1 := rfl
    rw [hc, hidem]
  · simp only [handleCreate]
    rw [h]
    show (((resolveTeam env c team).2.2) ++
        (getTeams env (resolveTeam env c team).2.1).2.2).all
          (fun q => !(Query.isCreate q)) = true
    have hl : (resolveTeam env c team).2.2 = (getTeams env c).2.2 := rfl
    have hc : (resolveTeam env c team).2.1 = (getTeams env c).2.1 := rfl
    rw [hl, hc, hidem]
    simp [List.all_append, getTeams_no_create env c]

/-- Witness for C7 at an unknown team key against the sample catalog. -/
theorem handleCreate_team_miss_witness :
    ((resolveTeam envSample cache0 "NOPE").1 = none) ∧
    (handleCreate envSample cache0 "Bug" "NOPE" {}).1 =
      "Team \"" ++ "NOPE" ++ "\" not found. Available: " ++
        String.intercalate ", "
          ((getTeams envSample cache0).1.map (fun t => t.key ++ " (" ++ t.name ++ ")")) ∧
    ((handleCreate envSample cache0 "Bug" "NOPE" {}).2.2).all
      (fun q => !(Query.isCreate q)) = true :=
  ⟨by decide,
   (handleCreate_team_miss envSample cache0 "Bug" "NOPE" {} (by decide)).1,
   (handleCreate_team_miss envSample cache0 "Bug" "NOPE" {} (by decide)).2⟩

/-- C10: a supplied labels array is never included in a mutation input —
an update supplying only labels builds an empty input, returns
"No updates provided" with an unchanged cache, and issues no mutation;
and every mutation either handler ever logs carries no labelIds field. -/
theorem labels_never_in_mutation :
    (∀ (env : Env) (c : Cache) (id : String) (labels : List String)
        (issue : IssueInfo), env.issueLookup (resolveId id) = some issue →
      handleUpdate env c id
          { state := none, priority := none, assignee := none, labels := some labels } =
        ("No updates provided", c, [Query.issueQ (resolveId id)])) ∧
    (∀ (env : Env) (c : Cache) (id : String) (updates : UpdateArgs),
      ((handleUpdate env c id updates).2.2).all Query.labelsFree = true) ∧
    (∀ (env : Env) (c : Cache) (title team : String) (opts : CreateOptions),
      ((handleCreate env c title team opts).2.2).all Query.labelsFree = true) := by
  refine ⟨?_, ?_, ?_⟩
  · intro env c id labels issue h
    simp [handleUpdate, h, updStateStep, updAssigneeStep, truthyOpt, MutInput.isEmpty]
  · intro env c id updates
    simp only [handleUpdate]
    cases hl : env.issueLookup (resolveId id) with
    | none => simp [Query.labelsFree]
    | some issue =>
      cases hs : updStateStep env c issue.teamId updates.state with
      | error t =>
        obtain ⟨msg, c1, l1⟩ := t
        have h1 := updStateStep_log_labelsFree env c issue.teamId updates.state
        rw [hs] at h1
        simp only [exLog] at h1
        simp only [hs]
        simp [List.all_append, h1, Query.labelsFree]
      | ok t =>
        obtain ⟨sid, c1, l1⟩ := t
        have h1 := updStateStep_log_labelsFree env c issue.teamId updates.state
        rw [hs] at h1
        simp only [exLog] at h1
        cases ha : updAssigneeStep env c1 updates.assignee with
        | error u =>
          obtain ⟨msg, c2, l2⟩ := u
          have h2 := updAssigneeStep_log_labelsFree env c1 updates.assignee
          rw [ha] at h2
          simp only [exLog] at h2
          simp only [hs, ha]
          simp [List.all_append, h1, h2, Query.labelsFree]
        | ok u =>
          obtain ⟨aid, c2, l2⟩ := u
          have h2 := updAssigneeStep_log_labelsFree env c1 updates.assignee
          rw [ha] at h2
          simp only [exLog] at h2
          by_cases he : (MutInput.isEmpty
              { stateId := sid, priority := updates.priority,
                assigneeId := aid, labelIds := none }) = true
          · simp only [hs, ha]
            simp [he, List.all_append, h1, h2, Query.labelsFree]
          · simp only [Bool.not_eq_true] at he
            simp only [hs, ha]
            simp [he, List.all_append, h1, h2, Query.labelsFree]
  · intro env c title team opts
    simp only [handleCreate]
    cases hr : (resolveTeam env c team).1 with
    | none =>
      have hl : (resolveTeam env c team).2.2 = (getTeams env c).2.2 := rfl
      have hc : (resolveTeam env c team).2.1 = (getTeams env c).2.1 := rfl
      simp only [hl, hc, getTeams_snd_idem env c]
      simp [List.all_append, getTeams_all_labelsFree env c, Query.labelsFree]
    | some teamData =>
      have hl : (resolveTeam env c team).2.2 = (getTeams env c).2.2 := rfl
      simp only [hl]
      simp [List.all_append, getTeams_all_labelsFree env c, Query.labelsFree]

/-- Witness for C10: the only-labels update on the sample issue, and the
create mutation input logged for a resolvable team carries no labels. -/
theorem labels_never_in_mutation_witness :
    (envSample.issueLookup (resolveId "ABC-1") = some issueInfoSample) ∧
    handleUpdate envSample cache0 "ABC-1"
        { state := none, priority := none, assignee := none, labels := some ["bug"] } =
      ("No updates provided", cache0, [Query.issueQ (resolveId "ABC-1")]) ∧
    ((handleCreate envSample cache0 "Bug" "ENG"
        { labels := some ["bug"] }).2.2).all Query.labelsFree = true :=
  ⟨by decide,
   labels_never_in_mutation.1 envSample cache0 "ABC-1" ["bug"] issueInfoSample (by decide),
   labels_never_in_mutation.2.2 envSample cache0 "Bug" "ENG" { labels := some ["bug"] }⟩

/-- A case-insensitive literal matches itself, leaving the rest. -/
theorem matchCI_self (p rest : List Char) : matchCI p (p ++ rest) = some rest := by
  induction p with
  | nil => rfl
  | cons a as ih => simp [matchCI, ciEq, ih]

/-- `takeWhile` passes over a block that satisfies the predicate. -/
theorem takeWhile_append_all (p : Char → Bool) (ws rest : List Char)
    (h : ∀ c ∈ ws, p c = true) :
    (ws ++ rest).takeWhile p = ws ++ rest.takeWhile p := by
  induction ws with
  | nil => simp
  | cons a as ih =>
    have ha := h a (List.mem_cons_self a as)
    simp [List.takeWhile_cons, ha,
      ih (fun c hc => h c (List.mem_cons_of_mem a hc))]

/-- `takeWhile` keeps a list all of whose elements satisfy the predicate. -/
theorem takeWhile_all (p : Char → Bool) (l : List Char)
    (h : ∀ c ∈ l, p c = true) : l.takeWhile p = l := by
  have := takeWhile_append_all p l [] h
  simpa using this

/-- The URL pattern matches at the start of an exact
`linear.app/<ws>/issue/<code>-<num>` shape and captures the code. -/
theorem matchUrlAt_exact (ws code num : List Char)
    (hws : ws ≠ []) (hws2 : ∀ c ∈ ws, c ≠ '/')
    (hcode : code ≠ []) (hcode2 : ∀ c ∈ code, c.isAlpha = true)
    (hnum : num ≠ []) (hnum2 : ∀ c ∈ num, c.isDigit = true) :
    matchUrlAt ("linear.app/".toList ++
        (ws ++ '/' :: ("issue/".toList ++ (code ++ '-' :: num))))
      = some (code ++ '-' :: num) := by
  have h1 : (ws ++ '/' :: ("issue/".toList ++ (code ++ '-' :: num))).takeWhile
      (fun c => c != '/') = ws := by
    rw [takeWhile_append_all _ ws _ (fun c hc => by simpa using hws2 c hc)]
    simp [List.takeWhile_cons]
  have h2 : (code ++ '-' :: num).takeWhile Char.isAlpha = code := by
    rw [takeWhile_append_all _ code _ hcode2]
    simp [List.takeWhile_cons]
  have h3 : num.takeWhile Char.isDigit = num := takeWhile_all _ num hnum2
  simp only [matchUrlAt, matchCI_self, h1]
  rw [List.isEmpty_eq_false_iff_exists_mem.mpr
    (by cases ws with | nil => exact absurd rfl hws | cons a l => exact ⟨a, by simp⟩)]
  simp only [List.drop_left]
  simp only [matchCI_self, h2]
  rw [List.isEmpty_eq_false_iff_exists_mem.mpr
    (by cases code with | nil => exact absurd rfl hcode | cons a l => exact ⟨a, by simp⟩)]
  simp only [List.drop_left, h3]
  rw [List.isEmpty_eq_false_iff_exists_mem.mpr
    (by cases num with | nil => exact absurd rfl hnum | cons a l => exact ⟨a, by simp⟩)]
  simp

/-- The left-to-right scan returns the code when the pattern matches at
the current position. -/
theorem findUrlCode_of_matchUrlAt (l code : List Char) (hl : l ≠ [])
    (h : matchUrlAt l = some code) : findUrlCode l = some code := by
  cases l with
  | nil => exact absurd rfl hl
  | cons c rest => simp [findUrlCode, h]

/-- The scan skips a prefix none of whose characters lowercases to 'l',
since the pattern's first literal character is 'l'. -/
theorem findUrlCode_skip (pre rest : List Char)
    (hp : ∀ c ∈ pre, c.toLower ≠ 'l') :
    findUrlCode (pre ++ rest) = findUrlCode rest := by
  induction pre with
  | nil => simp
  | cons a as ih =>
    have hne := hp a (List.mem_cons_self a as)
    have ha : ciEq 'l' a = false := by
      simp only [ciEq, beq_eq_false_iff_ne, ne_eq]
      intro hcontra
      exact hne (hcontra.symm.trans (by decide))
    have hc : matchCI "linear.app/".toList (a :: (as ++ rest)) = none := by
      rw [show "linear.app/".toList = 'l' :: "inear.app/".toList from rfl]
      simp only [matchCI, ha]
      rfl
    have hm : matchUrlAt (a :: (as ++ rest)) = none := by
      unfold matchUrlAt
      rw [hc]
    have hstep : findUrlCode (a :: (as ++ rest)) = findUrlCode (as ++ rest) := by
      simp only [findUrlCode]
      rw [hm]
    rw [List.cons_append, hstep,
      ih (fun c hc2 => hp c (List.mem_cons_of_mem a hc2))]

/-- C1 counterexample: a lowercase code segment in a linear.app issue URL
is extracted verbatim, not uppercased; and the URL
`example.com/x/issue/ABC-12`, which contains an `/issue/` segment but no
`linear.app/` marker, is passed through unchanged rather than having its
code extracted — both instances contradicting the claim as stated. -/
theorem resolveId_url_cex :
    resolveId "linear.app/acme/issue/aBc-12" = "aBc-12" ∧
    resolveId "linear.app/acme/issue/aBc-12" ≠ "ABC-12" ∧
    resolveId "example.com/x/issue/ABC-12" = "example.com/x/issue/ABC-12" ∧
    resolveId "example.com/x/issue/ABC-12" ≠ "ABC-12" := by decide

/-- C1 amended: for every URL of the form
`<prefix>linear.app/<workspace>/issue/<code>-<number>` — prefix free of
the letter l (e.g. a scheme), workspace a non-empty segment without
slashes, code non-empty letters in any casing, number non-empty digits —
`resolveId` extracts exactly the short code, preserving its casing. -/
theorem resolveId_url_amended (pre ws code num : List Char)
    (hpre : ∀ c ∈ pre, c.toLower ≠ 'l')
    (hws : ws ≠ []) (hws2 : ∀ c ∈ ws, c ≠ '/')
    (hcode : code ≠ []) (hcode2 : ∀ c ∈ code, c.isAlpha = true)
    (hnum : num ≠ []) (hnum2 : ∀ c ∈ num, c.isDigit = true) :
    resolveId (String.mk (pre ++ ("linear.app/".toList ++
        (ws ++ '/' :: ("issue/".toList ++ (code ++ '-' :: num))))))
      = String.mk (code ++ '-' :: num) := by
  have hmatch := matchUrlAt_exact ws code num hws hws2 hcode hcode2 hnum hnum2
  have hne : ("linear.app/".toList ++
      (ws ++ '/' :: ("issue/".toList ++ (code ++ '-' :: num)))) ≠ [] := by
    rw [show "linear.app/".toList = 'l' :: "inear.app/".toList from rfl,
      List.cons_append]
    exact List.cons_ne_nil _ _
  have hfind := findUrlCode_of_matchUrlAt _ _ hne hmatch
  have hskip := findUrlCode_skip pre ("linear.app/".toList ++
      (ws ++ '/' :: ("issue/".toList ++ (code ++ '-' :: num)))) hpre
  simp only [resolveId]
  have htl : (String.mk (pre ++ ("linear.app/".toList ++
      (ws ++ '/' :: ("issue/".toList ++ (code ++ '-' :: num)))))).toList
      = pre ++ ("linear.app/".toList ++
        (ws ++ '/' :: ("issue/".toList ++ (code ++ '-' :: num)))) := rfl
  rw [htl, hskip, hfind]

/-- Witness for C1 amended at `https://linear.app/acme/issue/aBc-123`. -/
theorem resolveId_url_amended_witness :
    (∀ c ∈ "https://".toList, c.toLower ≠ 'l') ∧
    ("acme".toList ≠ [] ∧ ∀ c ∈ "acme".toList, c ≠ '/') ∧
    resolveId (String.mk ("https://".toList ++ ("linear.app/".toList ++
        ("acme".toList ++ '/' :: ("issue/".toList ++
          ("aBc".toList ++ '-' :: "123".toList))))))
      = String.mk ("aBc".toList ++ '-' :: "123".toList) :=
  ⟨by decide, ⟨by decide, by decide⟩,
   resolveId_url_amended "https://".toList "acme".toList "aBc".toList "123".toList
     (by decide) (by decide) (by decide) (by decide) (by decide)
     (by decide) (by decide)⟩
